import Mathlib

/-
Verification of the `no-invalid-v-model` directive rule.

The rule walks every `v-model` directive binding in a template and reports
structural violations: ineligible host elements, illegal input types, an
unexpected argument, unsupported modifiers, a missing attribute value, an
expression that is not a valid assignment target, and a writeback into an
enclosing iteration variable (self-aliasing).

The embedding below translates the rule file `lib/rules/no-invalid-v-model.js`
into pure Lean functions.  AST nodes become structures; the visitor body for a
single directive node becomes `checkVModel`, which returns the ordered list of
findings the rule would report for that node.  Helpers from `lib/utils` are not
part of the sources at hand; their results are modelled as abstract fields of
the element (for the element-shape predicates) or from the specification text
(for `hasAttributeValue`), as documented at each site.
-/

set_option autoImplicit false

namespace VModelRule

/-- A variable bound by an enclosing scope (e.g. a `v-for` iteration variable).
In the AST a variable carries an identifier node; only `v.id.name` is read. -/
structure Variable where
  idName : String
  deriving DecidableEq, Repr

/-- One AST node on the chain from the host element outward.  The rule reads
`node.variables`, which may be absent on a given node (`variables &&
variables.find(...)` in the source), hence the `Option`. -/
structure ScopeFrame where
  scopeVariables : Option (List Variable)
  deriving DecidableEq, Repr

/-- The parsed form of a bound expression; the rule only inspects `node.type`. -/
structure ExprNode where
  type : String
  deriving DecidableEq, Repr

/-- A variable reference inside a bound value.  The rule reads `reference.id.name`
and `reference.id.parent.type`. -/
structure Reference where
  idName : String
  idParentType : String
  deriving DecidableEq, Repr

/-- The value carried by a directive attribute: its parsed expression (absent
when the value failed to parse) and the references it contains. -/
structure AttributeValue where
  expression : Option ExprNode
  references : List Reference
  deriving DecidableEq, Repr

/-- The key of a directive attribute: optional argument and modifier list. -/
structure DirectiveKey where
  argument : Option String
  modifiers : List String
  deriving DecidableEq, Repr

/-- A `v-model` directive attribute node: its key and optional value. -/
structure VModelNode where
  key : DirectiveKey
  value : Option AttributeValue
  deriving DecidableEq, Repr

/-- The host element of the directive.  `name` is the tag name, and
`scopeChain` is the list of `variables` slots of the element and its ancestor
nodes, innermost first — the chain `getVariable` walks via `node.parent`.

`isCustomComponent`, `hasBindTypeDirective` and `hasTypeFileAttribute` record
the results of `utils.isCustomComponent(node)`,
`utils.hasDirective(element, 'bind', 'type')` and
`utils.hasAttribute(element, 'type', 'file')`; those helpers live in
`lib/utils`, outside the sources at hand, so their outcomes are carried as
abstract fields, matching the specification which treats them as opaque
element predicates. -/
structure VElement where
  name : String
  isCustomComponent : Bool
  hasBindTypeDirective : Bool
  hasTypeFileAttribute : Bool
  scopeChain : List ScopeFrame
  deriving DecidableEq, Repr

/-- The allow-set of `v-model` modifiers (`VALID_MODIFIERS` in the source). -/
def VALID_MODIFIERS : List String := ["lazy", "number", "trim"]

/-- `isValidElement` from the source: the tag is a native form control, or the
element is a custom component whose tag is not one of the framework built-ins. -/
def isValidElement (node : VElement) : Bool :=
  node.name == "input" ||
  node.name == "select" ||
  node.name == "textarea" ||
  (node.name != "keep-alive" &&
   node.name != "slot" &&
   node.name != "transition" &&
   node.name != "transition-group" &&
   node.isCustomComponent)

/-- `isLhs` from the source: `node != null && (node.type === 'Identifier' ||
node.type === 'MemberExpression')`. -/
def isLhs (node : Option ExprNode) : Bool :=
  match node with
  | none => false
  | some n => n.type == "Identifier" || n.type == "MemberExpression"

/-- `getVariable` from the source: walk the node chain outward; on each node,
if it has a `variables` list, return its first entry whose `id.name` matches;
otherwise continue with the parent. -/
def getVariable (name : String) : List ScopeFrame → Option Variable
  | [] => none
  | frame :: rest =>
    match frame.scopeVariables.bind (fun vars => vars.find? (fun v => v.idName == name)) with
    | some found => some found
    | none => getVariable name rest

/-- JavaScript truthiness of the string-or-null `node.key.argument`: truthy
exactly when present and non-empty. -/
def jsTruthyString : Option String → Bool
  | none => false
  | some s => s != ""

/-- Modelled from the spec: `utils.hasAttributeValue` lives in `lib/utils`,
which is not among the sources at hand.  The specification states that a
binding carries a value iff the attribute had a `=` assignment form, i.e. iff
`value` is non-null, and that a binding with no value is the one reported as
missing its value. -/
def hasAttributeValue (node : VModelNode) : Bool :=
  node.value.isSome

/-- One finding reported by the rule; each constructor corresponds to one
`context.report` call site, carrying the `data` it passes. -/
inductive Finding where
  | UnsupportedHost (name : String)
  | DynamicInputType (name : String)
  | FileInputType (name : String)
  | UnexpectedArgument
  | UnsupportedModifier (name : String)
  | MissingValue
  | InvalidLhs
  | SelfAliasing
  deriving DecidableEq, Repr

/-- The message template each report call site passes, verbatim. -/
def messageOf : Finding → String
  | .UnsupportedHost _ => "\x27v-model\x27 directives aren\x27t supported on <\x7b\x7bname\x7d\x7d> elements."
  | .DynamicInputType _ => "\x27v-model\x27 directives don\x27t support dynamic input types."
  | .FileInputType _ => "\x27v-model\x27 directives don\x27t support \x27file\x27 input type."
  | .UnexpectedArgument => "\x27v-model\x27 directives require no argument."
  | .UnsupportedModifier _ => "\x27v-model\x27 directives don\x27t support the modifier \x27\x7b\x7bname\x7d\x7d\x27."
  | .MissingValue => "\x27v-model\x27 directives require that attribute value."
  | .InvalidLhs => "\x27v-model\x27 directives require the attribute value which is valid as LHS."
  | .SelfAliasing => "\x27v-model\x27 directives cannot update the iteration variable \x27x\x27 itself."

/-- The `data` mapping each report call site passes. -/
def dataOf : Finding → List (String × String)
  | .UnsupportedHost n => [("name", n)]
  | .DynamicInputType n => [("name", n)]
  | .FileInputType n => [("name", n)]
  | .UnsupportedModifier n => [("name", n)]
  | _ => []

/-- The visitor body for one `v-model` directive node, as the ordered list of
findings it reports.  Each clause translates one `if`/`for` of the source, in
source order. -/
def checkVModel (element : VElement) (node : VModelNode) : List Finding :=
  (if isValidElement element then [] else [Finding.UnsupportedHost element.name]) ++
  (if element.name == "input" then
    (if element.hasBindTypeDirective then [Finding.DynamicInputType element.name] else []) ++
    (if element.hasTypeFileAttribute then [Finding.FileInputType element.name] else [])
  else []) ++
  (if jsTruthyString node.key.argument then [Finding.UnexpectedArgument] else []) ++
  (node.key.modifiers.filterMap (fun modifier =>
    if VALID_MODIFIERS.contains modifier then none
    else some (Finding.UnsupportedModifier modifier))) ++
  (if hasAttributeValue node then [] else [Finding.MissingValue]) ++
  (match node.value with
   | none => []
   | some value =>
     (if isLhs value.expression then [] else [Finding.InvalidLhs]) ++
     (value.references.filterMap (fun reference =>
       if reference.idParentType == "MemberExpression" then none
       else if (getVariable reference.idName element.scopeChain).isSome then
         some Finding.SelfAliasing
       else none)))

/-- Spec-side definition of variable resolution, written from the words of the
spec: walk the chain innermost-to-outermost and return the first variable whose
name matches, or none when no frame in the chain binds the name. -/
def resolveVariableSpec (name : String) (chain : List ScopeFrame) : Option Variable :=
  ((chain.map (fun frame => frame.scopeVariables.getD [])).flatten).find? (fun v => v.idName == name)

/-- Observation used to state the modifier claim: the modifier named by an
`UnsupportedModifier` finding, and nothing for any other finding. -/
def modifierName : Finding → Option String
  | .UnsupportedModifier m => some m
  | _ => none

/-- Sample host: a plain `<input>` with no scope chain. -/
def inputElement : VElement :=
  { name := "input", isCustomComponent := false, hasBindTypeDirective := false,
    hasTypeFileAttribute := false, scopeChain := [] }

/-- Sample host: a `<slot>`, which is never an eligible host. -/
def slotElement : VElement :=
  { name := "slot", isCustomComponent := true, hasBindTypeDirective := false,
    hasTypeFileAttribute := false, scopeChain := [] }

/-- Sample host: an `<input>` inside an iteration scope binding `x`. -/
def loopElement : VElement :=
  { name := "input", isCustomComponent := false, hasBindTypeDirective := false,
    hasTypeFileAttribute := false,
    scopeChain := [{ scopeVariables := some [{ idName := "x" }] }] }

/-- Sample binding: bare `v-model` with no argument, no modifiers, no value. -/
def bareNode : VModelNode :=
  { key := { argument := none, modifiers := [] }, value := none }

/-- Sample value whose expression is a call — not a valid assignment target. -/
def callValue : AttributeValue :=
  { expression := some { type := "CallExpression" }, references := [] }

/-- Sample binding carrying `callValue`. -/
def callValueNode : VModelNode :=
  { key := { argument := none, modifiers := [] }, value := some callValue }

/-- Sample value that parsed to no expression at all. -/
def noExpressionValue : AttributeValue :=
  { expression := none, references := [] }

/-- Sample binding carrying `noExpressionValue`. -/
def noExpressionNode : VModelNode :=
  { key := { argument := none, modifiers := [] }, value := some noExpressionValue }

/-- Sample binding whose argument is the empty string: non-null but falsy. -/
def emptyArgumentNode : VModelNode :=
  { key := { argument := some "", modifiers := [] },
    value := some { expression := some { type := "Identifier" }, references := [] } }

/-- Sample binding: `v-model="x"` where `x` is a direct (non-member) reference. -/
def aliasingNode : VModelNode :=
  { key := { argument := none, modifiers := [] },
    value := some { expression := some { type := "Identifier" },
                    references := [{ idName := "x", idParentType := "ExpressionStatement" }] } }

/-- Sample value with three references: `x` written directly, `x` used as the
base of a member access, and `y` which no enclosing frame binds. -/
def mixedReferencesValue : AttributeValue :=
  { expression := some { type := "Identifier" },
    references := [{ idName := "x", idParentType := "ExpressionStatement" },
                   { idName := "x", idParentType := "MemberExpression" },
                   { idName := "y", idParentType := "ExpressionStatement" }] }

/-- Sample binding carrying `mixedReferencesValue`. -/
def mixedReferencesNode : VModelNode :=
  { key := { argument := none, modifiers := [] }, value := some mixedReferencesValue }

/-- Sample binding with modifiers `[lazy, aaa, trim, aaa]`: two occurrences of
the same illegal modifier among legal ones. -/
def modifiersNode : VModelNode :=
  { key := { argument := none, modifiers := ["lazy", "aaa", "trim", "aaa"] },
    value := some { expression := some { type := "Identifier" }, references := [] } }

/-- Auxiliary: `getVariable` computes the first match in the concatenation of
the frames' variable lists, innermost frame first. -/
theorem getVariable_eq_resolveVariableSpec (name : String) (chain : List ScopeFrame) :
    getVariable name chain = resolveVariableSpec name chain := by
  induction chain with
  | nil => rfl
  | cons frame rest ih =>
    rw [getVariable, resolveVariableSpec] at *
    cases h : frame.scopeVariables with
    | none => simpa [h, List.find?_append] using ih
    | some vars =>
      cases hf : vars.find? (fun v => v.idName == name) with
      | none => simpa [h, hf, List.find?_append] using ih
      | some found => simp [h, hf, List.find?_append]

/-- C2: variable resolution walks the scope chain innermost-to-outermost and
returns the first variable whose name matches — the first match of the
concatenated frame variable lists — and returns `none` exactly when no frame in
the chain binds the name.  The lookup is a pure function of the chain, so no
frame is mutated. -/
theorem getVariable_first_match_or_none :
    ∀ (name : String) (chain : List ScopeFrame),
      getVariable name chain = resolveVariableSpec name chain ∧
      (getVariable name chain = none ↔
        ∀ frame ∈ chain, ∀ v ∈ frame.scopeVariables.getD [], v.idName ≠ name) := by
  intro name chain
  refine ⟨getVariable_eq_resolveVariableSpec name chain, ?_⟩
  rw [getVariable_eq_resolveVariableSpec, resolveVariableSpec, List.find?_eq_none]
  constructor
  · intro h frame hframe v hv
    have : v ∈ (chain.map (fun frame => frame.scopeVariables.getD [])).flatten := by
      simp only [List.mem_flatten, List.mem_map]
      exact ⟨frame.scopeVariables.getD [], ⟨frame, hframe, rfl⟩, hv⟩
    simpa using h v this
  · intro h v hv
    simp only [List.mem_flatten, List.mem_map] at hv
    obtain ⟨l, ⟨frame, hframe, rfl⟩, hvl⟩ := hv
    simpa using h frame hframe v hvl

/-- C3: `isValidElement` holds exactly for the native form-control tags
`input`, `select`, `textarea`, or for a recognized custom component whose tag
is none of `keep-alive`, `slot`, `transition`, `transition-group`; and every
`v-model` binding on an ineligible host yields an `UnsupportedHost` finding
carrying the host tag, whatever the binding's argument, modifiers or value. -/
theorem isValidElement_iff_and_unsupportedHost :
    ∀ (e : VElement) (n : VModelNode),
      (isValidElement e = true ↔
        (e.name = "input" ∨ e.name = "select" ∨ e.name = "textarea" ∨
          (e.isCustomComponent = true ∧ e.name ≠ "keep-alive" ∧ e.name ≠ "slot" ∧
           e.name ≠ "transition" ∧ e.name ≠ "transition-group"))) ∧
      (isValidElement e = false → Finding.UnsupportedHost e.name ∈ checkVModel e n) := by
  intro e n
  constructor
  · simp only [isValidElement, Bool.or_eq_true, Bool.and_eq_true, beq_iff_eq, bne_iff_ne]
    tauto
  · intro h
    simp [checkVModel, h]

/-- C3 witness: `<slot>` is ineligible and a bare binding on it is reported. -/
theorem isValidElement_iff_and_unsupportedHost_witness :
    isValidElement slotElement = false ∧
    Finding.UnsupportedHost "slot" ∈ checkVModel slotElement bareNode := by
  refine ⟨by decide, ?_⟩
  exact (isValidElement_iff_and_unsupportedHost slotElement bareNode).2 (by decide)

/-- C4: `isLhs` holds exactly when the expression is present and is an
identifier or a member access; and a binding whose value expression is not an
assignment target yields an `InvalidLhs` finding. -/
theorem isLhs_iff_and_invalidLhs :
    ∀ (expr : Option ExprNode) (e : VElement) (n : VModelNode) (v : AttributeValue),
      (isLhs expr = true ↔
        ∃ en, expr = some en ∧ (en.type = "Identifier" ∨ en.type = "MemberExpression")) ∧
      (n.value = some v → isLhs v.expression = false →
        Finding.InvalidLhs ∈ checkVModel e n) := by
  intro expr e n v
  constructor
  · cases expr <;> simp [isLhs]
  · intro hv hl
    simp [checkVModel, hv, hl]

/-- C4 witness: a call expression is rejected as assignment target and the
binding carrying it is reported. -/
theorem isLhs_iff_and_invalidLhs_witness :
    callValueNode.value = some callValue ∧ isLhs callValue.expression = false ∧
    Finding.InvalidLhs ∈ checkVModel inputElement callValueNode := by
  refine ⟨rfl, by decide, ?_⟩
  exact (isLhs_iff_and_invalidLhs callValue.expression inputElement callValueNode callValue).2
    rfl (by decide)

/-- Auxiliary: what the per-modifier emitter can produce. -/
theorem emitModifier_eq_some (m : String) (f : Finding) :
    ((if VALID_MODIFIERS.contains m then none
      else some (Finding.UnsupportedModifier m)) = some f) ↔
      (VALID_MODIFIERS.contains m = false ∧ f = Finding.UnsupportedModifier m) := by
  cases h : VALID_MODIFIERS.contains m <;> simp [h, eq_comm]

/-- Auxiliary: what the per-reference emitter can produce. -/
theorem emitReference_eq_some (chain : List ScopeFrame) (r : Reference) (f : Finding) :
    ((if r.idParentType == "MemberExpression" then none
      else if (getVariable r.idName chain).isSome then some Finding.SelfAliasing
      else none) = some f) ↔
      ((r.idParentType == "MemberExpression") = false ∧
        (getVariable r.idName chain).isSome = true ∧ f = Finding.SelfAliasing) := by
  cases h1 : r.idParentType == "MemberExpression" <;>
    cases h2 : (getVariable r.idName chain).isSome <;> simp [h1, h2, eq_comm]

/-- C5: a binding carrying no value is reported as missing its value, and the
assignment-target and self-aliasing checks are never evaluated for it: neither
`InvalidLhs` nor `SelfAliasing` appears among its findings. -/
theorem missingValue_and_no_value_checks :
    ∀ (e : VElement) (n : VModelNode), n.value = none →
      Finding.MissingValue ∈ checkVModel e n ∧
      Finding.InvalidLhs ∉ checkVModel e n ∧
      Finding.SelfAliasing ∉ checkVModel e n := by
  intro e n h
  refine ⟨?_, ?_, ?_⟩ <;>
    simp [checkVModel, hasAttributeValue, h, List.mem_append, List.mem_filterMap,
      emitModifier_eq_some]

/-- C5 witness: the bare binding is reported as missing its value only. -/
theorem missingValue_and_no_value_checks_witness :
    bareNode.value = none ∧
    (Finding.MissingValue ∈ checkVModel inputElement bareNode ∧
     Finding.InvalidLhs ∉ checkVModel inputElement bareNode ∧
     Finding.SelfAliasing ∉ checkVModel inputElement bareNode) :=
  ⟨rfl, missingValue_and_no_value_checks inputElement bareNode rfl⟩

/-- C9: every `SelfAliasing` finding carries the fixed message with the literal
placeholder x and no data, independent of which variable was resolved. -/
theorem selfAliasing_message_fixed :
    ∀ (e : VElement) (n : VModelNode) (f : Finding),
      f ∈ checkVModel e n → f = Finding.SelfAliasing →
      messageOf f =
        "\x27v-model\x27 directives cannot update the iteration variable \x27x\x27 itself." ∧
      dataOf f = [] := by
  intro e n f _ hf
  subst hf
  exact ⟨rfl, rfl⟩

/-- C9 witness: a concrete binding that writes the iteration variable directly
produces a `SelfAliasing` finding, whose message is the fixed literal. -/
theorem selfAliasing_message_fixed_witness :
    Finding.SelfAliasing ∈ checkVModel loopElement aliasingNode ∧
    (messageOf Finding.SelfAliasing =
        "\x27v-model\x27 directives cannot update the iteration variable \x27x\x27 itself." ∧
      dataOf Finding.SelfAliasing = []) := by
  have hmem : Finding.SelfAliasing ∈ checkVModel loopElement aliasingNode := by decide
  exact ⟨hmem, selfAliasing_message_fixed loopElement aliasingNode Finding.SelfAliasing hmem rfl⟩

/-- C10: when a binding carries a value whose parsed expression is absent, the
assignment-target test returns `false` rather than failing, and the checker
reports `InvalidLhs` for that binding. -/
theorem missing_expression_invalidLhs :
    ∀ (e : VElement) (n : VModelNode) (v : AttributeValue),
      n.value = some v → v.expression = none →
      isLhs v.expression = false ∧ Finding.InvalidLhs ∈ checkVModel e n := by
  intro e n v hv he
  refine ⟨by rw [he]; rfl, ?_⟩
  simp [checkVModel, hv, he, isLhs]

/-- C10 witness: the binding whose value has no parsed expression is reported. -/
theorem missing_expression_invalidLhs_witness :
    noExpressionNode.value = some noExpressionValue ∧ noExpressionValue.expression = none ∧
    (isLhs noExpressionValue.expression = false ∧
      Finding.InvalidLhs ∈ checkVModel inputElement noExpressionNode) :=
  ⟨rfl, rfl, missing_expression_invalidLhs inputElement noExpressionNode noExpressionValue rfl rfl⟩

/-- Auxiliary: the argument is truthy exactly when present and non-empty. -/
theorem jsTruthyString_eq_true_iff (a : Option String) :
    jsTruthyString a = true ↔ ∃ s, a = some s ∧ s ≠ "" := by
  cases a <;> simp [jsTruthyString]

/-- C8 counterexample: a binding whose argument is the empty string has a
non-null argument, yet no `UnexpectedArgument` finding is produced, because the
source tests the argument for truthiness and the empty string is falsy. -/
theorem unexpectedArgument_empty_string_counterexample :
    emptyArgumentNode.key.argument ≠ none ∧
    Finding.UnexpectedArgument ∉ checkVModel inputElement emptyArgumentNode := by
  decide

/-- C8 amended: `UnexpectedArgument` is produced exactly when the binding's
argument is non-null and non-empty (truthy), independent of modifiers and
value; a null or empty-string argument never produces it. -/
theorem unexpectedArgument_iff_truthy_argument :
    ∀ (e : VElement) (n : VModelNode),
      Finding.UnexpectedArgument ∈ checkVModel e n ↔
        ∃ s, n.key.argument = some s ∧ s ≠ "" := by
  intro e n
  rw [← jsTruthyString_eq_true_iff]
  cases ht : jsTruthyString n.key.argument with
  | true =>
    simp [checkVModel, ht, List.mem_append]
  | false =>
    cases hv : n.value with
    | none =>
      simp [checkVModel, hv, ht, hasAttributeValue, List.mem_append, List.mem_filterMap,
        emitModifier_eq_some]
    | some v =>
      simp [checkVModel, hv, ht, hasAttributeValue, List.mem_append, List.mem_filterMap,
        emitModifier_eq_some, emitReference_eq_some]

/-- Auxiliary: extracting modifier names from the modifier-check segment gives
exactly the illegal modifiers, in order. -/
theorem filterMap_modifierName_modifiers (mods : List String) :
    ((mods.filterMap (fun modifier =>
        if VALID_MODIFIERS.contains modifier then none
        else some (Finding.UnsupportedModifier modifier))).filterMap modifierName) =
      mods.filter (fun m => !VALID_MODIFIERS.contains m) := by
  induction mods with
  | nil => rfl
  | cons m rest ih =>
    by_cases h : m ∈ VALID_MODIFIERS <;>
      simp_all [List.filterMap_cons, List.filter_cons, modifierName]

/-- Auxiliary: the self-aliasing segment carries no modifier names. -/
theorem filterMap_modifierName_references (chain : List ScopeFrame) (refs : List Reference) :
    ((refs.filterMap (fun reference =>
        if reference.idParentType == "MemberExpression" then none
        else if (getVariable reference.idName chain).isSome then some Finding.SelfAliasing
        else none)).filterMap modifierName) = [] := by
  rw [List.filterMap_eq_nil_iff]
  intro f hf
  rcases List.mem_filterMap.mp hf with ⟨r, _, hr⟩
  rcases (emitReference_eq_some chain r f).mp hr with ⟨_, _, rfl⟩
  rfl

/-- C6: the modifier names carried by the `UnsupportedModifier` findings of a
binding are exactly the binding's modifiers outside the allow-set
`{lazy, number, trim}`, in order and with duplicates — one finding per illegal
occurrence, none for allowed modifiers. -/
theorem unsupportedModifier_per_illegal_modifier :
    ∀ (e : VElement) (n : VModelNode),
      (checkVModel e n).filterMap modifierName =
        n.key.modifiers.filter (fun m => !VALID_MODIFIERS.contains m) := by
  intro e n
  cases hv : n.value with
  | none =>
    simp only [checkVModel, hv, List.filterMap_append, filterMap_modifierName_modifiers]
    split_ifs <;> simp [modifierName]
  | some v =>
    simp only [checkVModel, hv, List.filterMap_append, filterMap_modifierName_modifiers,
      filterMap_modifierName_references]
    split_ifs <;> simp [modifierName]

/-- C7: `DynamicInputType` is produced exactly when the host tag is `input`
and its `type` is dynamically bound, and `FileInputType` exactly when the host
tag is `input` with a literal `type="file"` attribute; no other tag ever
produces either finding. -/
theorem inputType_findings_iff :
    ∀ (e : VElement) (n : VModelNode),
      ((∃ s, Finding.DynamicInputType s ∈ checkVModel e n) ↔
        (e.name = "input" ∧ e.hasBindTypeDirective = true)) ∧
      ((∃ s, Finding.FileInputType s ∈ checkVModel e n) ↔
        (e.name = "input" ∧ e.hasTypeFileAttribute = true)) := by
  intro e n
  cases hv : n.value with
  | none =>
    constructor <;>
      simp [checkVModel, hv, hasAttributeValue, List.mem_append, List.mem_filterMap,
        emitModifier_eq_some, List.mem_ite_nil_left, List.mem_ite_nil_right]
  | some v =>
    constructor <;>
      simp [checkVModel, hv, hasAttributeValue, List.mem_append, List.mem_filterMap,
        emitModifier_eq_some, emitReference_eq_some, List.mem_ite_nil_left,
        List.mem_ite_nil_right]

/-- Auxiliary: the modifier-check segment contains no `SelfAliasing` finding. -/
theorem count_selfAliasing_modifiers (mods : List String) :
    ((mods.filterMap (fun modifier =>
        if VALID_MODIFIERS.contains modifier then none
        else some (Finding.UnsupportedModifier modifier))).count Finding.SelfAliasing) = 0 := by
  induction mods with
  | nil => rfl
  | cons m rest ih =>
    by_cases h : m ∈ VALID_MODIFIERS <;>
      simp_all [List.filterMap_cons, List.count_cons]

/-- Auxiliary: the self-aliasing segment holds one `SelfAliasing` finding per
reference that is not the base of a member access and whose name resolves. -/
theorem count_selfAliasing_references (chain : List ScopeFrame) (refs : List Reference) :
    ((refs.filterMap (fun reference =>
        if reference.idParentType == "MemberExpression" then none
        else if (getVariable reference.idName chain).isSome then some Finding.SelfAliasing
        else none)).count Finding.SelfAliasing) =
      (refs.filter (fun r =>
        r.idParentType != "MemberExpression" &&
        (getVariable r.idName chain).isSome)).length := by
  induction refs with
  | nil => rfl
  | cons r rest ih =>
    by_cases h1 : r.idParentType = "MemberExpression" <;>
      by_cases h2 : (getVariable r.idName chain).isSome = true <;>
        simp_all [List.filterMap_cons, List.filter_cons, List.count_cons]

/-- C1: for a binding that carries a value, the number of `SelfAliasing`
findings equals the number of variable references that are not the object of a
member access and whose name resolves in the scope chain — so each such
reference is reported, a reference skipped as a member base never is, and a
name used only as the base of a property access produces nothing. -/
theorem selfAliasing_per_reference (e : VElement) (n : VModelNode) (v : AttributeValue)
    (h : n.value = some v) :
    (checkVModel e n).count Finding.SelfAliasing =
      (v.references.filter (fun r =>
        r.idParentType != "MemberExpression" &&
        (getVariable r.idName e.scopeChain).isSome)).length := by
  simp only [checkVModel, h, List.count_append, count_selfAliasing_modifiers,
    count_selfAliasing_references]
  split_ifs <;> simp [List.count_cons]

/-- C1 witness: with `x` bound by the enclosing scope, the binding referencing
`x` directly, `x` as a member base, and the unbound `y` yields exactly one
`SelfAliasing` finding. -/
theorem selfAliasing_per_reference_witness :
    mixedReferencesNode.value = some mixedReferencesValue ∧
    (checkVModel loopElement mixedReferencesNode).count Finding.SelfAliasing =
      (mixedReferencesValue.references.filter (fun r =>
        r.idParentType != "MemberExpression" &&
        (getVariable r.idName loopElement.scopeChain).isSome)).length ∧
    (checkVModel loopElement mixedReferencesNode).count Finding.SelfAliasing = 1 :=
  ⟨rfl,
   selfAliasing_per_reference loopElement mixedReferencesNode mixedReferencesValue rfl,
   by decide⟩

end VModelRule
